import Mathlib

/-!
Verification of the realtime voice-call audio pipeline of the betterMind
web app (`apps/web/src/app/dashboard/page.tsx`, component `VoiceCall`).

The pipeline is shallowly embedded:
* the Capture Encoder's float→16-bit PCM conversion and the Playback
  Queue's decode step are modelled over `ℚ` (JS numbers carry the exact
  rational values appearing here; the `Int16Array` store applies the JS
  `ToInt16` conversion: truncation toward zero, then wrap modulo 2^16);
* the Playback Queue (`audioQueueRef` / `isPlayingRef` /
  `currentSourceRef` plus the `source.onended` callbacks) is a state
  machine driven by an explicit event trace; the browser's delivery of
  `ended` events (fired both on natural end of a buffer source and on
  `stop()`) is modelled by `springEnd` / `deliverEnd` scheduler events;
* the Protocol Event Dispatcher (`handleWebSocketMessage`) is a function
  from a parsed inbound event and client state to the new state plus a
  list of effects (`setTimeout` registrations), with JSON-parse failure
  of `ws.onmessage` modelled by an `Option` at the wire boundary;
* the Call Session Controller's `startCall` guard and the component's
  `isInitializedRef` guard are a small state machine over a list of
  created WebSockets.
-/

namespace BetterMind

/-! ## PCM sample conversion (Capture Encoder / Playback Queue decode) -/

/-- `Math.max(-1, Math.min(1, x))` from `startAudioCapture`. -/
def clamp (x : ℚ) : ℚ := max (-1) (min 1 x)

/-- Truncation toward zero of a rational, as performed by the JS
`ToInt16` abstract operation when a number is stored into an
`Int16Array` (`pcmData[i] = ...`). -/
def truncQ (q : ℚ) : ℤ := if q < 0 then ⌈q⌉ else ⌊q⌋

/-- Wrap an integer into the signed 16-bit range, as the `Int16Array`
store does after truncation. -/
def toInt16 (n : ℤ) : ℤ := (n + 32768) % 65536 - 32768

/-- One sample of the Capture Encoder's PCM conversion
(`startAudioCapture`): clamp to [-1, 1], scale negatives by 0x8000 and
non-negatives by 0x7FFF, store as a signed 16-bit integer. -/
def encodeSample (x : ℚ) : ℤ :=
  toInt16 (truncQ (if clamp x < 0 then clamp x * 0x8000 else clamp x * 0x7FFF))

/-- The two little-endian bytes of a stored 16-bit sample, as exposed by
viewing the `Int16Array` buffer as a `Uint8Array`. -/
def int16ToBytes (v : ℤ) : ℕ × ℕ :=
  ((v % 65536).toNat % 256, (v % 65536).toNat / 256)

/-- Reading two little-endian bytes back as one signed 16-bit sample,
as `new Int16Array(bytes.buffer)` does in `playAudio`. -/
def bytesToInt16 (b0 b1 : ℕ) : ℤ := toInt16 ((b0 : ℤ) + 256 * b1)

/-- The Playback Queue's decode step for one sample (`playAudio`):
`floatData[i] = pcmData[i] / 32768.0`. -/
def decodeSample (v : ℤ) : ℚ := (v : ℚ) / 32768

/-- A float sample pushed through the Capture Encoder's PCM conversion,
serialized to wire bytes, and decoded again by the Playback Queue. -/
def roundTrip (x : ℚ) : ℚ :=
  decodeSample (bytesToInt16 (int16ToBytes (encodeSample x)).1 (int16ToBytes (encodeSample x)).2)

/-! ## Base64 (`btoa` over the PCM bytes, `atob` on receipt) -/

def b64Alphabet : List Char :=
  "ABCDEFGHIJKLMNOPQRSTUVWXYZabcdefghijklmnopqrstuvwxyz0123456789+/".toList

def b64Char (n : ℕ) : Char := b64Alphabet.getD n '='

/-- Standard base64 encoding of a byte list, as `btoa` produces from the
byte string `String.fromCharCode.apply(null, uint8Array)`. -/
def base64Chars : List ℕ → List Char
  | [] => []
  | [a] => [b64Char (a / 4), b64Char (a % 4 * 16), '=', '=']
  | [a, b] => [b64Char (a / 4), b64Char (a % 4 * 16 + b / 16), b64Char (b % 16 * 4), '=']
  | a :: b :: c :: rest =>
      b64Char (a / 4) :: b64Char (a % 4 * 16 + b / 16) ::
      b64Char (b % 16 * 4 + c / 64) :: b64Char (c % 64) :: base64Chars rest

def base64Encode (bytes : List ℕ) : String := String.mk (base64Chars bytes)

def b64Value (c : Char) : Option ℕ := b64Alphabet.findIdx? (fun d => d == c)

/-- Base64 decoding (`atob` in `playAudio`): `none` models the exception
thrown on malformed input, which `playAudio` catches. -/
def base64DecodeChars : List Char → Option (List ℕ)
  | [] => some []
  | [c1, c2] => do
      let v1 ← b64Value c1; let v2 ← b64Value c2
      pure [v1 * 4 + v2 / 16]
  | [c1, c2, '=', '='] => do
      let v1 ← b64Value c1; let v2 ← b64Value c2
      pure [v1 * 4 + v2 / 16]
  | [c1, c2, c3] => do
      let v1 ← b64Value c1; let v2 ← b64Value c2; let v3 ← b64Value c3
      pure [v1 * 4 + v2 / 16, v2 % 16 * 16 + v3 / 4]
  | [c1, c2, c3, '='] => do
      let v1 ← b64Value c1; let v2 ← b64Value c2; let v3 ← b64Value c3
      pure [v1 * 4 + v2 / 16, v2 % 16 * 16 + v3 / 4]
  | c1 :: c2 :: c3 :: c4 :: rest => do
      let v1 ← b64Value c1; let v2 ← b64Value c2
      let v3 ← b64Value c3; let v4 ← b64Value c4
      let tail ← base64DecodeChars rest
      pure ((v1 * 4 + v2 / 16) :: (v2 % 16 * 16 + v3 / 4) :: (v3 % 4 * 64 + v4) :: tail)
  | _ => none

def base64Decode (s : String) : Option (List ℕ) := base64DecodeChars s.toList

/-! ## Playback Queue state machine

The chunk type is abstract (`α`); the dispatcher instantiates it with the
decoded sample list. Ghost fields `started` and `arrived` record the
sequence of chunks handed to `source.start(0)` and the sequence of chunks
pushed by `playAudio`, so that ordering claims can be stated; they are
write-only logs and influence no transition.

`rendering` is the set (list) of buffer sources currently producing
sound; `endedPending` is the browser's queue of `ended` events that have
fired (by natural end or by `stop()`) but whose `onended` callback has
not run yet. -/

structure QState (α : Type) where
  queue : List α
  isPlaying : Bool
  speaking : Bool
  current : Option α
  rendering : List α
  endedPending : List α
  started : List α
  arrived : List α
deriving DecidableEq

/-- The `currentSourceRef.current.stop()` calls (in `playNextInQueue` and
`stopAudioPlayback`): stopping a source that is still rendering silences
it and fires its `ended` event; on an already-stopped source the call
throws and the surrounding `try` ignores it. -/
def stopCurrent {α : Type} [DecidableEq α] (s : QState α) : QState α :=
  match s.current with
  | none => s
  | some c =>
      if c ∈ s.rendering then
        { s with rendering := s.rendering.erase c, endedPending := s.endedPending ++ [c] }
      else s

/-- `playNextInQueue`: on an empty queue clear the playing flags and
return; otherwise shift the head chunk, stop any current source, make a
new source the current one and start it. -/
def playNextInQueue {α : Type} [DecidableEq α] (s : QState α) : QState α :=
  match s.queue with
  | [] => { s with isPlaying := false, speaking := false }
  | c :: rest =>
      let s1 := stopCurrent { s with isPlaying := true, speaking := true, queue := rest }
      { s1 with current := some c, rendering := s1.rendering ++ [c], started := s1.started ++ [c] }

/-- `playAudio` after a successful decode: push the buffer on the queue
and, if not already playing, start the queue. -/
def playAudioQ {α : Type} [DecidableEq α] (c : α) (s : QState α) : QState α :=
  let s1 := { s with queue := s.queue ++ [c], arrived := s.arrived ++ [c] }
  if s1.isPlaying then s1 else playNextInQueue s1

/-- `stopAudioPlayback` (the `interruption` flush): stop the current
source, drop the reference, clear the queue, clear the playing flags. -/
def stopAudioPlayback {α : Type} [DecidableEq α] (s : QState α) : QState α :=
  let s1 := stopCurrent s
  { s1 with current := none, queue := [], isPlaying := false, speaking := false }

/-- The `source.onended` handler: null the current-source reference and
advance the queue. The handler does not check that the source it belongs
to is still the current one. -/
def onEnded {α : Type} [DecidableEq α] (s : QState α) : QState α :=
  playNextInQueue { s with current := none }

/-- Events driving the Playback Queue: an inbound decoded `audio` chunk,
an `interruption`, a rendering source finishing its buffer (its `ended`
event fires and joins `endedPending`), and the event loop delivering the
oldest pending `ended` event to the `onended` handler. -/
inductive QEv (α : Type)
  | arrive (c : α)
  | interrupt
  | springEnd
  | deliverEnd
deriving DecidableEq

def qstep {α : Type} [DecidableEq α] (s : QState α) : QEv α → QState α
  | .arrive c => playAudioQ c s
  | .interrupt => stopAudioPlayback s
  | .springEnd =>
      match s.rendering with
      | [] => s
      | c :: _ => { s with rendering := s.rendering.erase c, endedPending := s.endedPending ++ [c] }
  | .deliverEnd =>
      match s.endedPending with
      | [] => s
      | _ :: rest => onEnded { s with endedPending := rest }

def qrun {α : Type} [DecidableEq α] (s : QState α) (tr : List (QEv α)) : QState α :=
  tr.foldl qstep s

/-- The Playback Queue state at component mount. -/
def q0 : QState ℕ := ⟨[], false, false, none, [], [], [], []⟩

/-- A trace with no `interruption` event. -/
def noInterrupt {α : Type} (tr : List (QEv α)) : Prop := ∀ e ∈ tr, e ≠ QEv.interrupt

/-! ## Protocol Event Dispatcher (`handleWebSocketMessage`) -/

inductive Role
  | user
  | assistant
deriving DecidableEq

/-- One transcript entry, as appended by `setTranscript`. -/
structure Entry where
  role : Role
  content : String
deriving DecidableEq

/-- A parsed inbound wire event. `type` is the discriminator; each other
field models the corresponding optional-chained payload path
(`ping_event?.event_id`, `ping_event?.ping_ms`,
`user_transcription_event?.user_transcript`,
`agent_response_event?.agent_response`, `audio_event?.audio_base_64`),
with `none` when the object or the field is absent. -/
structure InEvent where
  type : String
  pingEventId : Option ℕ
  pingMs : Option ℕ
  userTranscript : Option String
  agentResponse : Option String
  audioBase64 : Option String
deriving DecidableEq

/-- Effects the dispatcher registers with the environment: the `ping`
case calls `setTimeout(cb, ping_ms || 0)` where `cb` sends a pong
carrying the remembered event id if the socket is open when it runs. -/
inductive Eff
  | timer (delayMs : ℕ) (eventId : Option ℕ)
deriving DecidableEq

/-- Outbound wire messages relevant to the claims: the pong reply and
the per-block `{user_audio_chunk: <base64>}` message. -/
inductive OutMsg
  | pong (eventId : Option ℕ)
  | userChunk (payload : String)
deriving DecidableEq

/-- The `setTimeout` guarantee: a callback scheduled at `scheduledAt`
with delay `delayMs` runs no earlier than `scheduledAt + delayMs`. -/
def timerFireOk (scheduledAt : ℕ) (eff : Eff) (fireAt : ℕ) : Prop :=
  match eff with
  | .timer d _ => scheduledAt + d ≤ fireAt

/-- Running a fired timer callback: the pong is sent only if
`ws.readyState === WebSocket.OPEN` still holds at fire time. -/
def runTimer (openAtFire : Bool) : Eff → List OutMsg
  | .timer _ eid => if openAtFire then [OutMsg.pong eid] else []

/-- Client state touched by the dispatcher: the accumulated transcript
and the Playback Queue (chunks are decoded sample lists). -/
structure ClientState where
  transcript : List Entry
  q : QState (List ℚ)
deriving DecidableEq

def client0 : ClientState := ⟨[], ⟨[], false, false, none, [], [], [], []⟩⟩

/-- Pair consecutive little-endian bytes into signed 16-bit samples, as
`new Int16Array(bytes.buffer)` reads the decoded byte buffer. -/
def pairBytes : List ℕ → List ℤ
  | b0 :: b1 :: rest => bytesToInt16 b0 b1 :: pairBytes rest
  | _ => []

/-- The decode part of `playAudio`: base64 → bytes → 16-bit samples →
floats by division by 32768. `none` models a thrown exception (invalid
base64, or a byte buffer whose length is not a multiple of 2, on which
the `Int16Array` constructor throws). -/
def decodeAudioChunk (b64 : String) : Option (List ℚ) :=
  match base64Decode b64 with
  | none => none
  | some bytes =>
      if bytes.length % 2 = 0 then some ((pairBytes bytes).map fun v => (v : ℚ) / 32768)
      else none

/-- `playAudio` on the base64 payload: on a decode error the `catch`
only logs and clears the speaking flag; otherwise the decoded chunk is
queued (and playback started when idle). -/
def playAudioStr (a : String) (s : QState (List ℚ)) : QState (List ℚ) :=
  match decodeAudioChunk a with
  | none => { s with speaking := false }
  | some ch => playAudioQ ch s

/-- `handleWebSocketMessage`: dispatch on `data.type`. Returns the new
client state and the effects registered. -/
def handleMessage (e : InEvent) (s : ClientState) : ClientState × List Eff :=
  match e.type with
  | "ping" => (s, [Eff.timer (e.pingMs.getD 0) e.pingEventId])
  | "user_transcript" =>
      match e.userTranscript with
      | some t =>
          if t = "" then (s, [])
          else ({ s with transcript := s.transcript ++ [⟨Role.user, t⟩] }, [])
      | none => (s, [])
  | "agent_response" =>
      match e.agentResponse with
      | some t =>
          if t = "" then (s, [])
          else ({ s with transcript := s.transcript ++ [⟨Role.assistant, t⟩] }, [])
      | none => (s, [])
  | "audio" =>
      match e.audioBase64 with
      | some a => if a = "" then (s, []) else ({ s with q := playAudioStr a s.q }, [])
      | none => (s, [])
  | "interruption" => ({ s with q := stopAudioPlayback s.q }, [])
  | "conversation_initiation_metadata" => (s, [])
  | _ => (s, [])

/-- The `ws.onmessage` boundary: `JSON.parse` failure (modelled as
`none`) is caught, logged, and changes nothing. -/
def onRaw (r : Option InEvent) (s : ClientState) : ClientState × List Eff :=
  match r with
  | none => (s, [])
  | some e => handleMessage e s

def runRaws (s : ClientState) (rs : List (Option InEvent)) : ClientState :=
  rs.foldl (fun st r => (onRaw r st).1) s

def runMsgs (s : ClientState) (es : List InEvent) : ClientState :=
  es.foldl (fun st e => (handleMessage e st).1) s

/-- `endCall` hands the accumulated transcript to the caller
(`onTranscript(transcript)`). -/
def endCall (s : ClientState) : List Entry := s.transcript

def mkPing (eid ms : ℕ) : InEvent := ⟨"ping", some eid, some ms, none, none, none⟩

def pingNoFields : InEvent := ⟨"ping", none, none, none, none, none⟩

def mkUserTranscript (t : String) : InEvent := ⟨"user_transcript", none, none, some t, none, none⟩

def mkAgentResponse (t : String) : InEvent := ⟨"agent_response", none, none, none, some t, none⟩

def toEvent (p : Role × String) : InEvent :=
  match p.1 with
  | .user => mkUserTranscript p.2
  | .assistant => mkAgentResponse p.2

def mkEntry (p : Role × String) : Entry := ⟨p.1, p.2⟩

/-- The event types `handleWebSocketMessage` recognizes. -/
def recognizedTypes : List String :=
  ["ping", "user_transcript", "agent_response", "audio", "interruption",
   "conversation_initiation_metadata"]

/-- A parsed message with an unrecognized `type`, or a recognized `type`
whose expected payload fields are missing. -/
def malformedEvent (e : InEvent) : Prop :=
  e.type ∉ recognizedTypes ∨
  (e.type = "ping" ∧ (e.pingEventId = none ∨ e.pingMs = none)) ∨
  (e.type = "user_transcript" ∧ e.userTranscript = none) ∨
  (e.type = "agent_response" ∧ e.agentResponse = none) ∨
  (e.type = "audio" ∧ e.audioBase64 = none)

/-- A malformed raw message: not parseable JSON, or parsed but malformed. -/
def malformedRaw : Option InEvent → Prop
  | none => True
  | some e => malformedEvent e

instance (e : InEvent) : Decidable (malformedEvent e) := by
  unfold malformedEvent; infer_instance

instance : (r : Option InEvent) → Decidable (malformedRaw r)
  | none => .isTrue trivial
  | some e => inferInstanceAs (Decidable (malformedEvent e))

/-! ## Capture Encoder block handler (`processor.onaudioprocess`) -/

/-- WebSocket `readyState` values. (`opened` is the source's
`WebSocket.OPEN`; `open` is a Lean keyword.) -/
inductive WsState
  | connecting
  | opened
  | closing
  | closed
deriving DecidableEq

/-- The capture graph state owned by the handler's environment; the
handler itself never touches it (it holds no buffer of blocks). -/
structure CaptureState where
  connected : Bool
deriving DecidableEq

/-- The wire bytes of one captured block: each sample PCM-encoded and
laid out as little-endian byte pairs in the `Int16Array` buffer. -/
def encodeBlock (block : List ℚ) : List ℕ :=
  (block.map encodeSample).flatMap fun v => [(int16ToBytes v).1, (int16ToBytes v).2]

/-- `processor.onaudioprocess`: when the socket is not open the handler
returns immediately (block dropped, nothing stored); otherwise it sends
one `{user_audio_chunk: <base64 PCM>}` message. -/
def onAudioBlock (st : CaptureState) (ready : WsState) (block : List ℚ) :
    CaptureState × List OutMsg :=
  if ready ≠ WsState.opened then (st, [])
  else (st, [OutMsg.userChunk (base64Encode (encodeBlock block))])

/-! ## Call Session Controller (`startCall` and the mount guard) -/

/-- Controller state: every WebSocket created so far (by `readyState`),
which one `websocketRef` currently points to, and the component's
`isInitializedRef` flag. -/
structure CtrlState where
  sockets : List WsState
  wsRef : Option ℕ
  initialized : Bool
deriving DecidableEq

def ctrl0 : CtrlState := ⟨[], none, false⟩

/-- The `readyState` of the socket `websocketRef` points to, if any. -/
def currentSocketState (s : CtrlState) : Option WsState :=
  s.wsRef.bind fun i => s.sockets[i]?

/-- `startCall`: if `websocketRef.current` exists and its `readyState`
is `OPEN`, skip; otherwise create a new WebSocket (initially
`CONNECTING`) and point `websocketRef` at it. The old socket, if any, is
not closed. -/
def startCall (s : CtrlState) : CtrlState :=
  if currentSocketState s = some WsState.opened then s
  else { s with sockets := s.sockets ++ [WsState.connecting], wsRef := some s.sockets.length }

/-- The mount effect: `if (isInitializedRef.current) return;` then set
the flag and call `startCall`. -/
def initCall (s : CtrlState) : CtrlState :=
  if s.initialized then s else startCall { s with initialized := true }

/-- Channels that exist and are not closed. -/
def activeChannels (s : CtrlState) : ℕ :=
  (s.sockets.filter fun w => decide (w ≠ WsState.closed)).length

/-! ## Concrete inputs used by witnesses and counterexamples -/

/-- A `user_transcript` event whose payload field is absent. -/
def userTranscriptMissing : InEvent := ⟨"user_transcript", none, none, none, none, none⟩

/-- An `agent_response` event whose payload field is absent. -/
def agentResponseMissing : InEvent := ⟨"agent_response", none, none, none, none, none⟩

/-- The spec's end-to-end transcript scenario. -/
def scenario : List (Role × String) :=
  [(Role.user, "I feel anxious today"), (Role.assistant, "Tell me more about that")]

/-- A controller whose only socket is open and referenced. -/
def ctrlOpen : CtrlState := ⟨[WsState.opened], some 0, true⟩

/-- Two chunks arriving, the first finishing and its end callback firing. -/
def tr4 : List (QEv ℕ) := [QEv.arrive 1, QEv.arrive 2, QEv.springEnd, QEv.deliverEnd]

/-- A capture graph that is connected. -/
def cap0 : CaptureState := ⟨true⟩

/-- A two-sample capture block. -/
def sampleBlock : List ℚ := [1/2, -1/2]

/-- A queue state rendering chunk 5 with chunks 6 and 7 still queued. -/
def qs9 : QState ℕ := ⟨[6, 7], true, true, some 5, [5], [], [5], [5, 6, 7]⟩

end BetterMind

namespace BetterMind

/-! ## PCM round-trip lemmas -/

theorem clamp_eq_self (x : ℚ) (h1 : -1 ≤ x) (h0 : x ≤ 1) : clamp x = x := by
  unfold clamp
  rw [min_eq_right h0, max_eq_right h1]

theorem toInt16_eq_self (n : ℤ) (h1 : -32768 ≤ n) (h0 : n ≤ 32767) : toInt16 n = n := by
  unfold toInt16; omega

/-- Serializing an in-range 16-bit sample to its two little-endian bytes
and reading it back is the identity. -/
theorem int16_bytes_id (v : ℤ) (h1 : -32768 ≤ v) (h0 : v ≤ 32767) :
    bytesToInt16 (int16ToBytes v).1 (int16ToBytes v).2 = v := by
  unfold bytesToInt16 int16ToBytes toInt16
  omega

/-- On non-negative in-range samples the full round trip is the floor of
the 0x7FFF-scaled sample divided by 32768. -/
theorem roundTrip_of_nonneg (x : ℚ) (h0 : 0 ≤ x) (h1 : x ≤ 1) :
    roundTrip x = (⌊x * 32767⌋ : ℚ) / 32768 := by
  have hc : clamp x = x := clamp_eq_self x (by linarith) h1
  have hq0 : ¬ (x * 32767 < 0) := not_lt.mpr (by positivity)
  have htr : truncQ (x * 32767) = ⌊x * 32767⌋ := by unfold truncQ; rw [if_neg hq0]
  have hfu : ⌊x * 32767⌋ ≤ 32767 := by
    have hx : x * 32767 ≤ (32767 : ℚ) := by nlinarith
    have h3 := Int.floor_le_floor hx
    simpa using h3
  have hfl : 0 ≤ ⌊x * 32767⌋ := Int.floor_nonneg.mpr (by positivity)
  have henc : encodeSample x = ⌊x * 32767⌋ := by
    unfold encodeSample
    rw [hc, if_neg (not_lt.mpr h0), htr, toInt16_eq_self _ (by omega) hfu]
  unfold roundTrip
  rw [henc, int16_bytes_id _ (by omega) hfu]
  rfl

/-- On negative in-range samples the full round trip is the ceiling
(truncation toward zero) of the 0x8000-scaled sample divided by 32768. -/
theorem roundTrip_of_neg (x : ℚ) (h1 : -1 ≤ x) (hx : x < 0) :
    roundTrip x = (⌈x * 32768⌉ : ℚ) / 32768 := by
  have hc : clamp x = x := clamp_eq_self x h1 (by linarith)
  have hq0 : x * 32768 < 0 := by nlinarith
  have htr : truncQ (x * 32768) = ⌈x * 32768⌉ := by unfold truncQ; rw [if_pos hq0]
  have hcu : ⌈x * 32768⌉ ≤ 0 := Int.ceil_le.mpr (by exact_mod_cast le_of_lt hq0)
  have hcl : -32768 ≤ ⌈x * 32768⌉ := by
    have hx2 : (-32768 : ℚ) ≤ x * 32768 := by nlinarith
    have h3 := Int.ceil_le_ceil hx2
    simpa using h3
  have henc : encodeSample x = ⌈x * 32768⌉ := by
    unfold encodeSample
    rw [hc, if_pos hx, htr, toInt16_eq_self _ hcl (by omega)]
  unfold roundTrip
  rw [henc, int16_bytes_id _ hcl (by omega)]
  rfl

/-! ## Playback Queue order-preservation lemmas -/

theorem stopCurrent_log {α : Type} [DecidableEq α] (s : QState α) :
    (stopCurrent s).queue = s.queue ∧ (stopCurrent s).started = s.started ∧
    (stopCurrent s).arrived = s.arrived := by
  unfold stopCurrent
  rcases s.current with _ | c
  · exact ⟨rfl, rfl, rfl⟩
  · dsimp only
    split <;> exact ⟨rfl, rfl, rfl⟩

/-- Advancing the queue moves exactly its head (if any) to the play log. -/
theorem playNext_log {α : Type} [DecidableEq α] (s : QState α) :
    (playNextInQueue s).started ++ (playNextInQueue s).queue = s.started ++ s.queue ∧
    (playNextInQueue s).arrived = s.arrived := by
  unfold playNextInQueue
  rcases hq : s.queue with _ | ⟨c, rest⟩
  · simp
  · have h1 := stopCurrent_log { s with isPlaying := true, speaking := true, queue := rest }
    dsimp only
    rw [h1.1, h1.2.1, h1.2.2]
    simp

/-- Every step other than an interruption preserves the equation
`played so far ++ still queued = arrived so far`. -/
theorem qstep_fifo {α : Type} [DecidableEq α] (s : QState α) (e : QEv α)
    (he : e ≠ QEv.interrupt) (h : s.started ++ s.queue = s.arrived) :
    (qstep s e).started ++ (qstep s e).queue = (qstep s e).arrived := by
  cases e with
  | arrive c =>
      unfold qstep playAudioQ
      dsimp only
      split
      · rw [← List.append_assoc, h]
      · have h2 := playNext_log { s with queue := s.queue ++ [c], arrived := s.arrived ++ [c] }
        rw [h2.1, h2.2]
        dsimp only
        rw [← List.append_assoc, h]
  | interrupt => exact absurd rfl he
  | springEnd =>
      unfold qstep
      rcases s.rendering with _ | ⟨c, rest⟩
      · exact h
      · exact h
  | deliverEnd =>
      unfold qstep
      rcases s.endedPending with _ | ⟨c, rest⟩
      · exact h
      · have h2 := playNext_log { s with endedPending := rest, current := none }
        unfold onEnded
        rw [h2.1, h2.2]
        exact h

theorem qrun_fifo {α : Type} [DecidableEq α] :
    ∀ (tr : List (QEv α)) (s : QState α), noInterrupt tr →
      s.started ++ s.queue = s.arrived →
      (qrun s tr).started ++ (qrun s tr).queue = (qrun s tr).arrived := by
  intro tr
  induction tr with
  | nil => intro s _ h; exact h
  | cons e rest ih =>
      intro s hni h
      have he : e ≠ QEv.interrupt := hni e (List.mem_cons_self e rest)
      have hni2 : noInterrupt rest := fun x hx => hni x (List.mem_cons_of_mem e hx)
      exact ih (qstep s e) hni2 (qstep_fifo s e he h)

/-! ## Dispatcher lemmas -/

theorem handle_user_step (s : ClientState) (t : String) (h : t ≠ "") :
    (handleMessage (mkUserTranscript t) s).1 =
      { s with transcript := s.transcript ++ [⟨Role.user, t⟩] } := by
  unfold handleMessage mkUserTranscript
  dsimp only
  rw [if_neg h]
  rfl

theorem handle_agent_step (s : ClientState) (t : String) (h : t ≠ "") :
    (handleMessage (mkAgentResponse t) s).1 =
      { s with transcript := s.transcript ++ [⟨Role.assistant, t⟩] } := by
  unfold handleMessage mkAgentResponse
  dsimp only
  rw [if_neg h]
  rfl

/-- No inbound message ever appends a transcript entry with empty
content. -/
theorem handle_clean (r : Option InEvent) (s : ClientState)
    (h : s.transcript.all (fun en => en.content != "") = true) :
    ((onRaw r s).1.transcript.all (fun en => en.content != "")) = true := by
  rcases r with _ | e
  · exact h
  · obtain ⟨ty, pid, pms, ut, ar, ab⟩ := e
    unfold onRaw handleMessage
    dsimp only
    split
    · exact h
    · rcases ut with _ | t
      · exact h
      · dsimp only
        split
        · exact h
        · next hne => simp [List.all_append, h, hne]
    · rcases ar with _ | t
      · exact h
      · dsimp only
        split
        · exact h
        · next hne => simp [List.all_append, h, hne]
    · rcases ab with _ | a
      · exact h
      · dsimp only
        split <;> exact h
    · exact h
    · exact h
    · exact h

theorem runRaws_clean : ∀ (rs : List (Option InEvent)) (s : ClientState),
    s.transcript.all (fun en => en.content != "") = true →
    (runRaws s rs).transcript.all (fun en => en.content != "") = true := by
  intro rs
  induction rs with
  | nil => intro s h; exact h
  | cons r rest ih => intro s h; exact ih _ (handle_clean r s h)

/-- A parsed but malformed event leaves the client state unchanged, and
produces no effect at all unless it is a `ping`. -/
theorem handle_malformed (e : InEvent) (s : ClientState) (h : malformedEvent e) :
    (handleMessage e s).1 = s ∧ (e.type ≠ "ping" → handleMessage e s = (s, [])) := by
  obtain ⟨ty, pid, pms, ut, ar, ab⟩ := e
  rcases h with hun | ⟨hty, _⟩ | ⟨hty, hf⟩ | ⟨hty, hf⟩ | ⟨hty, hf⟩
  · have hall : handleMessage ⟨ty, pid, pms, ut, ar, ab⟩ s = (s, []) := by
      simp only [recognizedTypes, List.mem_cons, List.mem_singleton, not_or] at hun
      unfold handleMessage
      dsimp only
      split <;> simp_all
    exact ⟨by rw [hall], fun _ => hall⟩
  · dsimp only at hty
    subst hty
    exact ⟨rfl, fun hne => absurd rfl hne⟩
  · dsimp only at hty hf
    subst hty; subst hf
    exact ⟨rfl, fun _ => rfl⟩
  · dsimp only at hty hf
    subst hty; subst hf
    exact ⟨rfl, fun _ => rfl⟩
  · dsimp only at hty hf
    subst hty; subst hf
    exact ⟨rfl, fun _ => rfl⟩

end BetterMind

namespace BetterMind

/-! ## Claim theorems -/

/-- C1: the `interruption` flush is claimed to be atomic with respect to
the chunk-end callback, never leaving the queue marked not-playing while
a chunk is rendering, with chunks enqueued after the interruption playing
normally. The code violates this: `stop()` inside `stopAudioPlayback`
fires the stopped source's `ended` event, whose unguarded `onended`
callback later runs `playNextInQueue` again. In the trace below, chunk 1
is playing, an interruption flushes it, chunk 2 arrives and starts, and
then the stale `ended` callback of chunk 1 marks the queue not-playing
while chunk 2 is still rendering; a further chunk 3 then starts while
chunk 2 is still audible (two sources rendering at once). -/
theorem interruption_flush_races_with_chunk_end :
    ((qrun q0 [QEv.arrive 1, QEv.interrupt, QEv.arrive 2, QEv.deliverEnd]).isPlaying = false ∧
     (qrun q0 [QEv.arrive 1, QEv.interrupt, QEv.arrive 2, QEv.deliverEnd]).rendering = [2]) ∧
    (qrun q0
      [QEv.arrive 1, QEv.interrupt, QEv.arrive 2, QEv.deliverEnd, QEv.arrive 3]).rendering
      = [2, 3] := by
  decide

/-- C2 (counterexample): at the in-range sample 65535/65536 the encode
scale 0x7FFF and the decode divisor 32768 disagree enough that the
round-trip error is 3/65536, strictly more than the claimed 1/32768. -/
theorem roundTrip_error_exceeds_quantization_bound :
    |roundTrip (65535/65536 : ℚ) - 65535/65536| > 1/32768 := by
  have h := roundTrip_of_nonneg (65535/65536) (by norm_num) (by norm_num)
  have hfloor : ⌊(65535/65536 : ℚ) * 32767⌋ = 32766 := by
    rw [Int.floor_eq_iff]
    constructor <;> norm_num
  have hval : ((32766 : ℤ) : ℚ) / 32768 - 65535/65536 = -(3/65536) := by norm_num
  rw [h, hfloor, hval, abs_neg, abs_of_nonneg (by norm_num)]
  norm_num

/-- C2 (amended): for every sample in [-1, 1], encoding through the
Capture Encoder's PCM conversion and decoding through the Playback
Queue's decode step differs from the original by at most 2/32768.
Negative samples stay within 1/32768; the non-negative side can exceed
one quantum because encoding scales by 0x7FFF while decoding divides by
32768. -/
theorem roundTrip_error_within_two_quanta (x : ℚ) (h1 : -1 ≤ x) (h2 : x ≤ 1) :
    |roundTrip x - x| ≤ 2/32768 := by
  rcases lt_or_le x 0 with hx | hx
  · rw [roundTrip_of_neg x h1 hx]
    have hle : x * 32768 ≤ (⌈x * 32768⌉ : ℚ) := Int.le_ceil _
    have hlt : (⌈x * 32768⌉ : ℚ) < x * 32768 + 1 := Int.ceil_lt_add_one _
    rw [abs_le]
    constructor <;> [linarith; linarith]
  · rw [roundTrip_of_nonneg x hx h2]
    have hle : (⌊x * 32767⌋ : ℚ) ≤ x * 32767 := Int.floor_le _
    have hlt : x * 32767 - 1 < (⌊x * 32767⌋ : ℚ) := Int.sub_one_lt_floor _
    rw [abs_le]
    constructor <;> [linarith; linarith]

/-- C2 (witness): the amended bound at the concrete sample 1/2. -/
theorem roundTrip_error_within_two_quanta_witness :
    |roundTrip (1/2 : ℚ) - 1/2| ≤ 2/32768 :=
  roundTrip_error_within_two_quanta (1/2) (by norm_num) (by norm_num)

/-- C3 (counterexample): after one `startCall` the socket is still
`CONNECTING`, and a second `startCall` is not a no-op — it creates a
second WebSocket, leaving two active (non-closed) channels, not one. -/
theorem startCall_while_connecting_duplicates_channel :
    currentSocketState (startCall ctrl0) = some WsState.connecting ∧
    activeChannels (startCall (startCall ctrl0)) = 2 := by
  decide

/-- C3 (amended): the `startCall` guard makes a second invocation an
idempotent no-op only when the referenced socket is already `OPEN`
(leaving the active-channel count unchanged); double-initialization
while the first attempt is still `CONNECTING` is instead prevented one
level up by the component's `isInitializedRef` flag, whose guarded entry
point is idempotent. -/
theorem startCall_idempotent_when_open (s s' : CtrlState)
    (h : currentSocketState s = some WsState.opened) :
    startCall s = s ∧ activeChannels (startCall s) = activeChannels s ∧
    initCall (initCall s') = initCall s' := by
  have h1 : startCall s = s := by unfold startCall; rw [if_pos h]
  refine ⟨h1, by rw [h1], ?_⟩
  by_cases hi : s'.initialized
  · have h2 : initCall s' = s' := by unfold initCall; rw [if_pos hi]
    rw [h2, h2]
  · have h2 : initCall s' = startCall { s' with initialized := true } := by
      unfold initCall; rw [if_neg hi]
    have hinit : (startCall { s' with initialized := true }).initialized = true := by
      unfold startCall; split <;> rfl
    rw [h2]
    unfold initCall
    rw [if_pos hinit]

/-- C3 (witness): the amended statement at a controller with one open
referenced socket and at the initial controller state. -/
theorem startCall_idempotent_when_open_witness :
    startCall ctrlOpen = ctrlOpen ∧
    activeChannels (startCall ctrlOpen) = activeChannels ctrlOpen ∧
    initCall (initCall ctrl0) = initCall ctrl0 :=
  startCall_idempotent_when_open ctrlOpen ctrl0 (by decide)

/-- C4: over any event trace without an `interruption`, the chunks handed
to `source.start` followed by the chunks still queued are exactly the
chunks that arrived, in arrival order — so playback happens in exactly
the order of the inbound `audio` events, with no chunk skipped or
replayed, and once the queue is empty everything that arrived has been
played exactly once. -/
theorem playback_preserves_arrival_order (tr : List (QEv ℕ)) (h : noInterrupt tr) :
    (qrun q0 tr).started ++ (qrun q0 tr).queue = (qrun q0 tr).arrived ∧
    ((qrun q0 tr).queue = [] → (qrun q0 tr).started = (qrun q0 tr).arrived) := by
  have key := qrun_fifo tr q0 h rfl
  refine ⟨key, fun hq => ?_⟩
  rw [hq] at key
  simpa using key

/-- C4 (witness): the order invariant on a concrete four-event trace. -/
theorem playback_preserves_arrival_order_witness :
    (qrun q0 tr4).started ++ (qrun q0 tr4).queue = (qrun q0 tr4).arrived :=
  (playback_preserves_arrival_order tr4 (by unfold noInterrupt; decide)).1

/-- C5: a `ping` carrying an event id and a delay makes the dispatcher
register exactly one timer with exactly that delay and id (so by the
`setTimeout` guarantee the callback runs no earlier than `ping_ms`
milliseconds after receipt), and the fired callback sends exactly one
`pong` echoing the event id when the channel is still open, and nothing
when it has closed. -/
theorem ping_schedules_single_pong (s : ClientState) (eid ms receipt fireAt : ℕ)
    (hfire : timerFireOk receipt (Eff.timer ms (some eid)) fireAt) :
    handleMessage (mkPing eid ms) s = (s, [Eff.timer ms (some eid)]) ∧
    receipt + ms ≤ fireAt ∧
    runTimer true (Eff.timer ms (some eid)) = [OutMsg.pong (some eid)] ∧
    runTimer false (Eff.timer ms (some eid)) = [] :=
  ⟨rfl, hfire, rfl, rfl⟩

/-- C5 (witness): the spec's `ping_ms = 500` scenario, received at time
1000 and fired at time 1500. -/
theorem ping_schedules_single_pong_witness :
    handleMessage (mkPing 7 500) client0 = (client0, [Eff.timer 500 (some 7)]) ∧
    1000 + 500 ≤ 1500 ∧
    runTimer true (Eff.timer 500 (some 7)) = [OutMsg.pong (some 7)] ∧
    runTimer false (Eff.timer 500 (some 7)) = [] :=
  ping_schedules_single_pong client0 7 500 1000 1500 (by unfold timerFireOk; omega)

/-- C6 (counterexample): a `user_transcript` event whose text is the
empty string contributes no transcript entry, so the transcript handed
over at `endCall` does not contain one entry per event. -/
theorem transcript_drops_empty_text_event :
    endCall (runMsgs client0 [toEvent (Role.user, "")]) ≠ [mkEntry (Role.user, "")] := by
  decide

/-- C6 (amended): for every interleaved sequence of `user_transcript`
and `agent_response` events whose texts are non-empty, the transcript
handed over at `endCall` contains exactly one entry per event —
`{role: user, content}` for `user_transcript` and `{role: assistant,
content}` for `agent_response` — in exactly the arrival order; an event
with empty (or missing) text contributes no entry. -/
theorem transcript_preserves_arrival_order (seq : List (Role × String)) :
    ∀ s : ClientState, (∀ p ∈ seq, p.2 ≠ "") →
      endCall (runMsgs s (seq.map toEvent)) = endCall s ++ seq.map mkEntry := by
  induction seq with
  | nil => intro s _; simp [runMsgs, endCall]
  | cons p rest ih =>
      intro s hne
      have hp : p.2 ≠ "" := hne p (List.mem_cons_self p rest)
      have hrest : ∀ q ∈ rest, q.2 ≠ "" := fun q hq => hne q (List.mem_cons_of_mem p hq)
      obtain ⟨r, t⟩ := p
      have hstep : (handleMessage (toEvent (r, t)) s).1 =
          { s with transcript := s.transcript ++ [⟨r, t⟩] } := by
        cases r
        · exact handle_user_step s t hp
        · exact handle_agent_step s t hp
      have hrun : runMsgs s (((r, t) :: rest).map toEvent) =
          runMsgs ((handleMessage (toEvent (r, t)) s).1) (rest.map toEvent) := rfl
      rw [hrun, hstep, ih _ hrest]
      simp [endCall, mkEntry]

/-- C6 (witness): the spec's end-to-end scenario — "I feel anxious
today" then "Tell me more about that" — yields exactly those two entries
in that order. -/
theorem transcript_preserves_arrival_order_witness :
    endCall (runMsgs client0 (scenario.map toEvent)) = endCall client0 ++ scenario.map mkEntry :=
  transcript_preserves_arrival_order scenario client0 (by decide)

/-- C7: the capture-block handler keeps no state of its own; when the
channel is not open the block is dropped (no message, no state change,
the capture graph untouched so capture continues), and when the channel
is open exactly one message carrying the base64-encoded 16-bit PCM
payload of the block is sent. -/
theorem capture_block_send_or_drop (st : CaptureState) (ready : WsState) (block : List ℚ) :
    (onAudioBlock st ready block).1 = st ∧
    (ready ≠ WsState.opened → onAudioBlock st ready block = (st, [])) ∧
    (ready = WsState.opened →
      onAudioBlock st ready block =
        (st, [OutMsg.userChunk (base64Encode (encodeBlock block))])) := by
  refine ⟨?_, ?_, ?_⟩ <;> unfold onAudioBlock
  · split <;> rfl
  · intro h; rw [if_pos h]
  · intro h; rw [if_neg (by simp [h])]

/-- C7 (witness): a concrete block is dropped on a closed channel and
sent as exactly one base64 PCM message on an open one. -/
theorem capture_block_send_or_drop_witness :
    onAudioBlock cap0 WsState.closed sampleBlock = (cap0, []) ∧
    onAudioBlock cap0 WsState.opened sampleBlock =
      (cap0, [OutMsg.userChunk (base64Encode (encodeBlock sampleBlock))]) :=
  ⟨(capture_block_send_or_drop cap0 WsState.closed sampleBlock).2.1 (by decide),
   (capture_block_send_or_drop cap0 WsState.opened sampleBlock).2.2 rfl⟩

/-- C8 (counterexample): a `ping` whose payload fields are all missing
is malformed, yet the dispatcher does not discard it — it still
registers a zero-delay pong timer with no event id. -/
theorem malformed_ping_still_answered :
    malformedRaw (some pingNoFields) ∧
    onRaw (some pingNoFields) client0 ≠ (client0, []) := by
  decide

/-- C8 (amended): every inbound message that is unparseable JSON, has an
unrecognized `type`, or is missing its expected payload fields leaves
the client state — transcript and Playback Queue — unchanged and raises
no error; it produces no outbound effect at all except that a malformed
`ping` still schedules a pong reply. -/
theorem malformed_message_discarded_except_ping (r : Option InEvent) (s : ClientState)
    (h : malformedRaw r) :
    (onRaw r s).1 = s ∧
    (∀ e, r = some e → e.type ≠ "ping" → onRaw r s = (s, [])) ∧
    (r = none → onRaw r s = (s, [])) := by
  rcases r with _ | e
  · exact ⟨rfl, fun e he => absurd he (by simp), fun _ => rfl⟩
  · have hm := handle_malformed e s h
    refine ⟨hm.1, fun e2 he2 hne => ?_, fun hn => by cases hn⟩
    have he : e2 = e := by injection he2.symm
    subst he
    exact hm.2 hne

/-- C8 (witness): an unparseable message at the initial client state is
discarded with the state unchanged. -/
theorem malformed_message_discarded_except_ping_witness :
    (onRaw none client0).1 = client0 :=
  (malformed_message_discarded_except_ping none client0 trivial).1

/-- C9: when the source rendering a chunk stops prematurely (an output
device failure surfaces as its `ended` event, exactly like a natural
end), the delivered chunk-end callback advances the Playback Queue to
the next queued chunk and playback continues rather than halting. -/
theorem playback_error_advances_queue (s : QState ℕ) (c d : ℕ) (rest : List ℕ)
    (hr : s.rendering = [c]) (hp : s.endedPending = []) (hq : s.queue = d :: rest) :
    (qrun s [QEv.springEnd, QEv.deliverEnd]).current = some d ∧
    (qrun s [QEv.springEnd, QEv.deliverEnd]).isPlaying = true ∧
    (qrun s [QEv.springEnd, QEv.deliverEnd]).queue = rest ∧
    (qrun s [QEv.springEnd, QEv.deliverEnd]).started = s.started ++ [d] := by
  obtain ⟨q, ip, sp, cur, ren, ep, st, ar⟩ := s
  dsimp only at hr hp hq
  subst hr hp hq
  simp [qrun, qstep, onEnded, playNextInQueue, stopCurrent, List.erase_cons_head]

/-- C9 (witness): chunk 5 fails mid-render while 6 and 7 are queued;
after the end callback, chunk 6 is playing and 7 remains queued. -/
theorem playback_error_advances_queue_witness :
    (qrun qs9 [QEv.springEnd, QEv.deliverEnd]).current = some 6 ∧
    (qrun qs9 [QEv.springEnd, QEv.deliverEnd]).isPlaying = true ∧
    (qrun qs9 [QEv.springEnd, QEv.deliverEnd]).queue = [7] ∧
    (qrun qs9 [QEv.springEnd, QEv.deliverEnd]).started = qs9.started ++ [6] :=
  playback_error_advances_queue qs9 5 6 [7] rfl rfl rfl

/-- C10: a `user_transcript` or `agent_response` event with missing or
empty text appends nothing, and over any run from the initial state the
transcript handed over at `endCall` contains only entries with non-empty
content. -/
theorem transcript_contains_only_nonempty_content (rs : List (Option InEvent))
    (s : ClientState) :
    (endCall (runRaws client0 rs)).all (fun en => en.content != "") = true ∧
    (handleMessage userTranscriptMissing s).1 = s ∧
    (handleMessage (mkUserTranscript "") s).1 = s ∧
    (handleMessage agentResponseMissing s).1 = s ∧
    (handleMessage (mkAgentResponse "") s).1 = s :=
  ⟨runRaws_clean rs client0 rfl, rfl, rfl, rfl, rfl⟩

/-- C10 (witness): a run containing a non-empty and an empty
`user_transcript` keeps only non-empty content, and the four degenerate
events leave the initial state unchanged. -/
theorem transcript_contains_only_nonempty_content_witness :
    (endCall (runRaws client0 [some (mkUserTranscript "hi"), some (mkUserTranscript "")])).all
      (fun en => en.content != "") = true ∧
    (handleMessage userTranscriptMissing client0).1 = client0 ∧
    (handleMessage (mkUserTranscript "") client0).1 = client0 ∧
    (handleMessage agentResponseMissing client0).1 = client0 ∧
    (handleMessage (mkAgentResponse "") client0).1 = client0 :=
  transcript_contains_only_nonempty_content
    [some (mkUserTranscript "hi"), some (mkUserTranscript "")] client0

end BetterMind
